import Mathlib

/-!
Verification of the measurement evaluation and classification core of the
ansinetamts application (streamlit_app.py): the measurement evaluator, the
series summarizer, the series synthesizer, the free-text input parser and
the criteria index builder.

Modelling conventions.

Python floats are idealized as rational numbers and arithmetic is exact.
IEEE rounding, infinities and NaN are outside the model, so the numeric
token parser treats the special spellings inf, infinity and nan (which the
Python float constructor would also accept) as unparseable, and the decimal
rendering of numbers embedded into detail strings is an exact decimal
rendering rather than the shortest round-tripping form.

A Python dict lookup that can raise KeyError, and a list index that can
raise IndexError, are modelled with Option or Except results; a none or an
error result models the raised exception.

The standard library pseudo-random generator random.Random is external to
the repository, so simulate_measurements takes the stream of
uniform(-0.05, 0.05) draws as an explicit function argument: uniform seed i
is the i-th draw of the generator seeded with seed, and the embedding
threads the seed computed by the repository's own _stable_seed through it.
-/

unseal Rat.mul Rat.add Rat.sub Rat.inv Rat.ofScientific

namespace Ansinetamts

/-- Rounds a rational to the nearest integer with ties going to the even
integer, modelling the rounding used by the round builtin and by
fixed-precision formatting. -/
def roundHalfEvenInt (q : ℚ) : ℤ :=
  let n := ⌊q⌋
  let f := q - n
  if f < 1 / 2 then n
  else if 1 / 2 < f then n + 1
  else if n % 2 = 0 then n else n + 1

/-- Left-pads a string with zeros up to the given length. -/
def padZeros (k : Nat) (s : String) : String :=
  String.mk (List.replicate (k - s.length) '0') ++ s

/-- Fixed-precision decimal formatting of a rational, modelling the Python
format specifier .2f and friends (round half to even, then render). -/
def formatFixed (prec : Nat) (q : ℚ) : String :=
  let n := roundHalfEvenInt (q * 10 ^ prec)
  let a := n.natAbs
  (if n < 0 then "-" else "") ++ toString (a / 10 ^ prec) ++
    (if prec = 0 then "" else "." ++ padZeros prec (toString (a % 10 ^ prec)))

/-- Decimal rendering of a rational, modelling str applied to a float with a
finite decimal expansion (for example str(5.0) is "5.0"); rationals without
a short finite decimal expansion fall back to the raw rational rendering,
an idealization no claim depends on. -/
def pyFloatStr (q : ℚ) : String :=
  match (List.range 65).find? (fun k => (q * 10 ^ k).den = 1) with
  | some 0 => toString q.num ++ ".0"
  | some k =>
    let n := (q * 10 ^ k).num
    let digits := padZeros (k + 1) (toString n.natAbs)
    (if n < 0 then "-" else "") ++ digits.take (digits.length - k) ++ "." ++
      digits.drop (digits.length - k)
  | none => toString q

/-- The Python or operator on an optional float operand: an absent value and
a value equal to 0.0 are both falsy and defer to the right operand. -/
def pyOrQ : Option ℚ → Option ℚ → Option ℚ
  | some x, b => if x = 0 then b else some x
  | none, b => b

/-- The fields of a criterion record that the core functions read. Fields
used only for display (label and parameter text) are omitted; an absent
optional key is modelled as none. -/
structure Criterion where
  id : String
  evaluation_type : Option String
  minimum : Option ℚ
  maximum : Option ℚ
  investigate_below : Option ℚ
  investigate_above : Option ℚ
  unit : Option String
  note : Option String
deriving DecidableEq

/-- The status and detail dictionary returned by evaluate_measurement. -/
structure Classification where
  status : String
  detail : String
deriving DecidableEq

/-- ASCII whitespace, as matched by the regex class backslash-s and stripped
by str.strip with no argument. -/
def isPySpace (c : Char) : Bool :=
  c == ' ' || c == '\t' || c == '\n' || c == '\r' || c == '\x0b' || c == '\x0c'

/-- Removes leading and trailing characters satisfying p, modelling
str.strip. -/
def stripEnds (p : Char → Bool) (s : List Char) : List Char :=
  ((s.dropWhile p).reverse.dropWhile p).reverse

/-- str.strip on a whole string value. -/
def pyStripStr (s : String) : String :=
  String.mk (stripEnds isPySpace s.data)

/-- The elif arm reading investigate_below inside evaluate_measurement,
threading the running (status, detail) pair. -/
def checkInvestigateBelow (criterion : Criterion) (comparison_value : ℚ)
    (sd : String × String) : String × String :=
  match criterion.investigate_below with
  | some ib =>
    if comparison_value < ib then
      ("Investigate", sd.2 ++ " — below caution threshold of " ++ pyFloatStr ib ++ ".")
    else sd
  | none => sd

/-- The minimum / investigate_below block of evaluate_measurement. -/
def checkLower (criterion : Criterion) (comparison_value : ℚ)
    (sd : String × String) : String × String :=
  match criterion.minimum with
  | some m =>
    if comparison_value < m then
      ("Fail", sd.2 ++ " — below minimum of " ++ pyFloatStr m ++ ".")
    else checkInvestigateBelow criterion comparison_value sd
  | none => checkInvestigateBelow criterion comparison_value sd

/-- The elif arm reading investigate_above inside evaluate_measurement. -/
def checkInvestigateAbove (criterion : Criterion) (comparison_value : ℚ)
    (sd : String × String) : String × String :=
  match criterion.investigate_above with
  | some ia =>
    if comparison_value > ia then
      ("Investigate", sd.2 ++ " — above caution threshold of " ++ pyFloatStr ia ++ ".")
    else sd
  | none => sd

/-- The maximum / investigate_above block of evaluate_measurement; in the
source it runs unconditionally after the lower block. -/
def checkUpper (criterion : Criterion) (comparison_value : ℚ)
    (sd : String × String) : String × String :=
  match criterion.maximum with
  | some m =>
    if comparison_value > m then
      ("Fail", sd.2 ++ " — above maximum of " ++ pyFloatStr m ++ ".")
    else checkInvestigateAbove criterion comparison_value sd
  | none => checkInvestigateAbove criterion comparison_value sd

/-- Shallow embedding of evaluate_measurement. The value argument is an
Option, modelling the value is None guard of the source; the baseline in
(None, 0) membership test of the source is the none / zero split below. -/
def evaluate_measurement (value : Option ℚ) (criterion : Criterion)
    (baseline : Option ℚ) : Classification :=
  let eval_type := criterion.evaluation_type.getD "absolute"
  if eval_type = "qualitative" then
    ⟨"Review", "Document observations — qualitative checks rely on professional judgment."⟩
  else
    match value with
    | none => ⟨"Info", "Enter a numeric value to evaluate."⟩
    | some v =>
      if eval_type = "percentage_change" then
        match baseline with
        | none => ⟨"Info", "Baseline or reference value is required to compute percent change."⟩
        | some b =>
          if b = 0 then
            ⟨"Info", "Baseline or reference value is required to compute percent change."⟩
          else
            let comparison_value := |(v - b) / b| * 100
            let detail := "Computed change: " ++ formatFixed 2 comparison_value ++ "%"
            let sd := checkUpper criterion comparison_value
              (checkLower criterion comparison_value ("Pass", detail))
            ⟨sd.1, sd.2⟩
      else
        let detail :=
          if eval_type = "ratio" then "Measured ratio: " ++ formatFixed 2 v
          else pyStripStr ("Measured value: " ++ formatFixed 2 v ++ " " ++ criterion.unit.getD "")
        let sd := checkUpper criterion v (checkLower criterion v ("Pass", detail))
        ⟨sd.1, sd.2⟩

/-- The status and detail produced by evaluate_measurement in absolute mode:
the two bound-checking blocks applied to the raw value. -/
theorem eval_absolute_eq (c : Criterion) (v : ℚ)
    (htype : c.evaluation_type.getD "absolute" = "absolute") (b : Option ℚ) :
    evaluate_measurement (some v) c b =
      ⟨(checkUpper c v (checkLower c v ("Pass",
          pyStripStr ("Measured value: " ++ formatFixed 2 v ++ " " ++ c.unit.getD "")))).1,
        (checkUpper c v (checkLower c v ("Pass",
          pyStripStr ("Measured value: " ++ formatFixed 2 v ++ " " ++ c.unit.getD "")))).2⟩ := by
  simp only [evaluate_measurement, htype, String.reduceEq, reduceIte]

/-- The upper block reports Fail whenever the statistic is strictly above the
maximum, whatever pair the lower block produced. -/
theorem checkUpper_fst_gt (c : Criterion) (v M : ℚ) (sd : String × String)
    (h : c.maximum = some M) (hv : M < v) : (checkUpper c v sd).1 = "Fail" := by
  simp only [checkUpper, h]
  rw [if_pos hv]

/-- The upper block reports Investigate when the statistic does not exceed
the maximum (when one is set) but strictly exceeds investigate_above. -/
theorem checkUpper_fst_inv (c : Criterion) (v a : ℚ) (sd : String × String)
    (ha : c.investigate_above = some a) (hM : ∀ M, c.maximum = some M → v ≤ M)
    (hv : a < v) : (checkUpper c v sd).1 = "Investigate" := by
  cases hmax : c.maximum with
  | none =>
    simp only [checkUpper, checkInvestigateAbove, ha, hmax]
    rw [if_pos hv]
  | some M =>
    simp only [checkUpper, checkInvestigateAbove, ha, hmax]
    rw [if_neg (not_lt.mpr (hM M hmax)), if_pos hv]

/-- The upper block leaves the pair unchanged when the statistic is at or
below every upper bound that is set. -/
theorem checkUpper_eq_of_le (c : Criterion) (v : ℚ) (sd : String × String)
    (hM : ∀ M, c.maximum = some M → v ≤ M)
    (ha : ∀ a, c.investigate_above = some a → v ≤ a) : checkUpper c v sd = sd := by
  cases hmax : c.maximum with
  | none =>
    cases hia : c.investigate_above with
    | none => simp only [checkUpper, checkInvestigateAbove, hmax, hia]
    | some a =>
      simp only [checkUpper, checkInvestigateAbove, hmax, hia]
      rw [if_neg (not_lt.mpr (ha a hia))]
  | some M =>
    cases hia : c.investigate_above with
    | none =>
      simp only [checkUpper, checkInvestigateAbove, hmax, hia]
      rw [if_neg (not_lt.mpr (hM M hmax))]
    | some a =>
      simp only [checkUpper, checkInvestigateAbove, hmax, hia]
      rw [if_neg (not_lt.mpr (hM M hmax)), if_neg (not_lt.mpr (ha a hia))]

/-- The lower block leaves the pair unchanged when the statistic is at or
above every lower bound that is set. -/
theorem checkLower_eq_of_ge (c : Criterion) (v : ℚ) (sd : String × String)
    (hm : ∀ m, c.minimum = some m → m ≤ v)
    (hb : ∀ b, c.investigate_below = some b → b ≤ v) : checkLower c v sd = sd := by
  cases hmin : c.minimum with
  | none =>
    cases hib : c.investigate_below with
    | none => simp only [checkLower, checkInvestigateBelow, hmin, hib]
    | some b =>
      simp only [checkLower, checkInvestigateBelow, hmin, hib]
      rw [if_neg (not_lt.mpr (hb b hib))]
  | some m =>
    cases hib : c.investigate_below with
    | none =>
      simp only [checkLower, checkInvestigateBelow, hmin, hib]
      rw [if_neg (not_lt.mpr (hm m hmin))]
    | some b =>
      simp only [checkLower, checkInvestigateBelow, hmin, hib]
      rw [if_neg (not_lt.mpr (hm m hmin)), if_neg (not_lt.mpr (hb b hib))]

/-- When the lower block already set Fail, the upper block keeps a Fail
status as long as the statistic does not strictly exceed investigate_above
(it may append bound commentary, or re-set Fail above the maximum). -/
theorem checkUpper_fst_fail (c : Criterion) (v : ℚ) (d : String)
    (ha : ∀ a, c.investigate_above = some a → v ≤ a) :
    (checkUpper c v ("Fail", d)).1 = "Fail" := by
  cases hmax : c.maximum with
  | none =>
    cases hia : c.investigate_above with
    | none => simp only [checkUpper, checkInvestigateAbove, hmax, hia]
    | some a =>
      simp only [checkUpper, checkInvestigateAbove, hmax, hia]
      rw [if_neg (not_lt.mpr (ha a hia))]
  | some M =>
    by_cases hv : M < v
    · simp only [checkUpper, hmax]
      rw [if_pos hv]
    · cases hia : c.investigate_above with
      | none =>
        simp only [checkUpper, checkInvestigateAbove, hmax, hia]
        rw [if_neg hv]
      | some a =>
        simp only [checkUpper, checkInvestigateAbove, hmax, hia]
        rw [if_neg hv, if_neg (not_lt.mpr (ha a hia))]

/-- C1: for an absolute-mode criterion with both hard bounds set, whose
caution bounds (when present) lie between the hard bounds as the data model
requires, evaluate_measurement classifies a value strictly below the minimum
as Fail, a value strictly above the maximum as Fail, and a value strictly
between investigate_below and investigate_above as Pass; the hard-bound
comparisons are strict, so a value exactly equal to the maximum is not
classified Fail. -/
theorem C1_absolute_hard_and_caution_bounds (c : Criterion) (v m M : ℚ)
    (htype : c.evaluation_type.getD "absolute" = "absolute")
    (hmin : c.minimum = some m) (hmax : c.maximum = some M) (hmM : m ≤ M)
    (hib : ∀ b, c.investigate_below = some b → m ≤ b ∧ b ≤ M)
    (hia : ∀ a, c.investigate_above = some a → m ≤ a ∧ a ≤ M) :
    (v < m → (evaluate_measurement (some v) c none).status = "Fail") ∧
    (M < v → (evaluate_measurement (some v) c none).status = "Fail") ∧
    (∀ b a, c.investigate_below = some b → c.investigate_above = some a →
      b < v → v < a → (evaluate_measurement (some v) c none).status = "Pass") ∧
    (v = M → (evaluate_measurement (some v) c none).status ≠ "Fail") := by
  have he := eval_absolute_eq c v htype none
  refine ⟨?_, ?_, ?_, ?_⟩
  · intro hv
    rw [he]
    have hlow : checkLower c v ("Pass",
        pyStripStr ("Measured value: " ++ formatFixed 2 v ++ " " ++ c.unit.getD "")) =
        ("Fail", pyStripStr ("Measured value: " ++ formatFixed 2 v ++ " " ++ c.unit.getD "") ++
          " — below minimum of " ++ pyFloatStr m ++ ".") := by
      simp only [checkLower, hmin]
      rw [if_pos hv]
    rw [hlow]
    exact checkUpper_fst_fail c v _
      (fun a haeq => le_of_lt (lt_of_lt_of_le hv (hia a haeq).1))
  · intro hv
    rw [he]
    exact checkUpper_fst_gt c v M _ hmax hv
  · intro b a hbeq haeq hbv hva
    rw [he]
    have h1 := checkLower_eq_of_ge c v ("Pass",
        pyStripStr ("Measured value: " ++ formatFixed 2 v ++ " " ++ c.unit.getD ""))
      (fun m' hm' => by
        rw [hmin] at hm'
        rw [← Option.some_inj.mp hm']
        exact le_of_lt (lt_of_le_of_lt (hib b hbeq).1 hbv))
      (fun b' hb' => by
        rw [hbeq] at hb'
        rw [← Option.some_inj.mp hb']
        exact le_of_lt hbv)
    have h2 := checkUpper_eq_of_le c v ("Pass",
        pyStripStr ("Measured value: " ++ formatFixed 2 v ++ " " ++ c.unit.getD ""))
      (fun M' hM' => by
        rw [hmax] at hM'
        rw [← Option.some_inj.mp hM']
        exact le_of_lt (lt_of_lt_of_le hva (hia a haeq).2))
      (fun a' ha' => by
        rw [haeq] at ha'
        rw [← Option.some_inj.mp ha']
        exact le_of_lt hva)
    rw [h1, h2]
  · intro hveq
    subst hveq
    rw [he]
    have hlow := checkLower_eq_of_ge c v ("Pass",
        pyStripStr ("Measured value: " ++ formatFixed 2 v ++ " " ++ c.unit.getD ""))
      (fun m' hm' => by
        rw [hmin] at hm'
        rw [← Option.some_inj.mp hm']
        exact hmM)
      (fun b' hb' => (hib b' hb').2)
    rw [hlow]
    cases hia' : c.investigate_above with
    | none =>
      simp only [checkUpper, checkInvestigateAbove, hmax, hia']
      rw [if_neg (lt_irrefl v)]
      exact (by decide : ("Pass" : String) ≠ "Fail")
    | some a =>
      simp only [checkUpper, checkInvestigateAbove, hmax, hia']
      rw [if_neg (lt_irrefl v)]
      by_cases hav : a < v
      · rw [if_pos hav]
        exact (by decide : ("Investigate" : String) ≠ "Fail")
      · rw [if_neg hav]
        exact (by decide : ("Pass" : String) ≠ "Fail")

/-- Concrete absolute criterion used by the C1 witness. -/
def c1crit : Criterion :=
  ⟨"c1w", some "absolute", some 5, some 10, some 6, some 9, some "MΩ", none⟩

/-- C1 witness: a concrete absolute criterion with minimum 5, maximum 10,
investigate_below 6 and investigate_above 9, evaluated at 4, 11, 7 and 10. -/
theorem C1_witness :
    ((evaluate_measurement (some 4) c1crit none).status = "Fail") ∧
    ((evaluate_measurement (some 11) c1crit none).status = "Fail") ∧
    ((evaluate_measurement (some 7) c1crit none).status = "Pass") ∧
    ((evaluate_measurement (some 10) c1crit none).status ≠ "Fail") := by
  have hib : ∀ b : ℚ, c1crit.investigate_below = some b → (5 : ℚ) ≤ b ∧ b ≤ 10 := by
    intro b hb
    rw [show c1crit.investigate_below = some 6 from rfl] at hb
    injection hb with h
    subst h
    norm_num
  have hia : ∀ a : ℚ, c1crit.investigate_above = some a → (5 : ℚ) ≤ a ∧ a ≤ 10 := by
    intro a ha
    rw [show c1crit.investigate_above = some 9 from rfl] at ha
    injection ha with h
    subst h
    norm_num
  refine ⟨?_, ?_, ?_, ?_⟩
  · exact (C1_absolute_hard_and_caution_bounds c1crit 4 5 10 rfl rfl rfl (by norm_num)
      hib hia).1 (by norm_num)
  · exact (C1_absolute_hard_and_caution_bounds c1crit 11 5 10 rfl rfl rfl (by norm_num)
      hib hia).2.1 (by norm_num)
  · exact (C1_absolute_hard_and_caution_bounds c1crit 7 5 10 rfl rfl rfl (by norm_num)
      hib hia).2.2.1 6 9 rfl rfl (by norm_num) (by norm_num)
  · exact (C1_absolute_hard_and_caution_bounds c1crit 10 5 10 rfl rfl rfl (by norm_num)
      hib hia).2.2.2 rfl

/-- C2: in percentage_change mode an absent or exactly-zero baseline yields
Info with the baseline-required message; with a nonzero baseline the test
statistic fed to both bound-checking blocks is the absolute percentage
change, which is always non-negative (direction is not preserved), and for a
positive baseline it equals the difference over the baseline times 100. -/
theorem C2_percentage_change_baseline (c : Criterion) (v : ℚ)
    (htype : c.evaluation_type.getD "absolute" = "percentage_change") :
    evaluate_measurement (some v) c none =
      ⟨"Info", "Baseline or reference value is required to compute percent change."⟩ ∧
    evaluate_measurement (some v) c (some 0) =
      ⟨"Info", "Baseline or reference value is required to compute percent change."⟩ ∧
    (∀ b : ℚ, b ≠ 0 →
      evaluate_measurement (some v) c (some b) =
        ⟨(checkUpper c (|v - b| / |b| * 100) (checkLower c (|v - b| / |b| * 100)
            ("Pass", "Computed change: " ++ formatFixed 2 (|v - b| / |b| * 100) ++ "%"))).1,
          (checkUpper c (|v - b| / |b| * 100) (checkLower c (|v - b| / |b| * 100)
            ("Pass", "Computed change: " ++ formatFixed 2 (|v - b| / |b| * 100) ++ "%"))).2⟩ ∧
      0 ≤ |v - b| / |b| * 100 ∧
      (0 < b → |v - b| / |b| * 100 = |v - b| / b * 100)) := by
  refine ⟨?_, ?_, ?_⟩
  · simp only [evaluate_measurement, htype, String.reduceEq, reduceIte]
  · simp only [evaluate_measurement, htype, String.reduceEq, reduceIte]
  · intro b hb
    refine ⟨?_, by positivity, fun hbpos => by rw [abs_of_pos hbpos]⟩
    simp only [evaluate_measurement, htype, String.reduceEq, reduceIte]
    rw [if_neg hb]
    simp only [abs_div]

/-- C2 witness: a percentage_change criterion with maximum 25, applied at
value 120 with no baseline, a zero baseline, and baseline 100; the final
conjunct instantiates the spec boundary example, value 125 against baseline
100 giving statistic exactly 25 and hence Pass. -/
def c2crit : Criterion :=
  ⟨"c2w", some "percentage_change", none, some 25, none, none, some "A", none⟩

theorem C2_witness :
    (evaluate_measurement (some 120) c2crit none =
      ⟨"Info", "Baseline or reference value is required to compute percent change."⟩) ∧
    (evaluate_measurement (some 120) c2crit (some 0) =
      ⟨"Info", "Baseline or reference value is required to compute percent change."⟩) ∧
    (0 : ℚ) ≤ |(120 : ℚ) - 100| / |(100 : ℚ)| * 100 ∧
    ((evaluate_measurement (some 125) c2crit (some 100)).status = "Pass") := by
  refine ⟨?_, ?_, ?_, ?_⟩
  · exact (C2_percentage_change_baseline c2crit 120 rfl).1
  · exact (C2_percentage_change_baseline c2crit 120 rfl).2.1
  · exact ((C2_percentage_change_baseline c2crit 120 rfl).2.2 100 (by norm_num)).2.1
  · decide

/-- C7: the maximum / investigate_above block evaluates second and its
outcome is the returned status whatever the lower block produced: a value
strictly above the maximum always returns Fail, and a value at or below the
maximum (when set) but strictly above investigate_above always returns
Investigate, so an Investigate or Fail set by the lower block is never
visible when the upper block assigns a status. -/
theorem C7_upper_block_evaluates_second (c : Criterion) (v : ℚ)
    (htype : c.evaluation_type.getD "absolute" = "absolute") :
    (∀ M, c.maximum = some M → M < v →
      (evaluate_measurement (some v) c none).status = "Fail") ∧
    (∀ a, c.investigate_above = some a → (∀ M, c.maximum = some M → v ≤ M) → a < v →
      (evaluate_measurement (some v) c none).status = "Investigate") := by
  have he := eval_absolute_eq c v htype none
  constructor
  · intro M hM hv
    rw [he]
    exact checkUpper_fst_gt c v M _ hM hv
  · intro a ha hM hv
    rw [he]
    exact checkUpper_fst_inv c v a _ ha hM hv

/-- C7 witness: with minimum 100 and maximum 50 the lower block sets Fail at
value 60 and the upper block re-assigns Fail; with investigate_below 100,
investigate_above 50 and maximum 200 the lower block sets Investigate at 60
and the returned status is the upper block's Investigate. -/
def c7critA : Criterion := ⟨"c7a", some "absolute", some 100, some 50, none, none, none, none⟩

def c7critB : Criterion := ⟨"c7b", some "absolute", none, some 200, some 100, some 50, none, none⟩

theorem C7_witness :
    ((evaluate_measurement (some 60) c7critA none).status = "Fail") ∧
    ((evaluate_measurement (some 60) c7critB none).status = "Investigate") := by
  constructor
  · exact (C7_upper_block_evaluates_second c7critA 60 rfl).1 50 rfl (by norm_num)
  · refine (C7_upper_block_evaluates_second c7critB 60 rfl).2 50 rfl ?_ (by norm_num)
    intro M hM
    rw [show c7critB.maximum = some 200 from rfl] at hM
    injection hM with h
    subst h
    norm_num

/-- C9: a qualitative criterion always produces Review with the fixed
message, for any value (present or absent), any baseline, and any bounds on
the criterion. -/
theorem C9_qualitative_always_review (c : Criterion) (value baseline : Option ℚ)
    (h : c.evaluation_type = some "qualitative") :
    evaluate_measurement value c baseline =
      ⟨"Review", "Document observations — qualitative checks rely on professional judgment."⟩ := by
  simp only [evaluate_measurement, h, Option.getD_some, String.reduceEq, reduceIte]

/-- C9 witness: a qualitative criterion carrying numeric bounds, evaluated
with an absent value and no baseline. -/
def c9crit : Criterion := ⟨"c9w", some "qualitative", some 1, some 2, some 1.2, some 1.8, none, none⟩

theorem C9_witness :
    evaluate_measurement none c9crit none =
      ⟨"Review", "Document observations — qualitative checks rely on professional judgment."⟩ :=
  C9_qualitative_always_review c9crit none none rfl

/-- Characters matched by the separator class of the regular expression used
by parse_measurement_series: ASCII whitespace, comma, semicolon, hyphen and
slash (the class lists the comma twice; the set is the same). -/
def isSepChar (c : Char) : Bool :=
  isPySpace c || c == ',' || c == ';' || c == '-' || c == '/'

/-- re.split on one-or-more separator characters: pieces between maximal
separator runs, keeping the empty pieces that arise when the input starts or
ends with a separator. -/
def reSplitSeps : List Char → List (List Char)
  | [] => [[]]
  | c :: rest =>
    if isSepChar c then
      match rest with
      | [] => [[], []]
      | c2 :: _ => if isSepChar c2 then reSplitSeps rest else [] :: reSplitSeps rest
    else
      match reSplitSeps rest with
      | [] => [[c]]
      | t :: ts => (c :: t) :: ts

/-- Consumes the remaining digits of a digit group, allowing a single
underscore between two digits as the Python float grammar does, returning
the accumulated value, the total count of digits consumed and the rest. -/
def digitsLoop (acc nd : Nat) : List Char → Nat × Nat × List Char
  | '_' :: c :: rest =>
    if c.isDigit then digitsLoop (acc * 10 + (c.toNat - 48)) (nd + 1) rest
    else (acc, nd, '_' :: c :: rest)
  | c :: rest =>
    if c.isDigit then digitsLoop (acc * 10 + (c.toNat - 48)) (nd + 1) rest
    else (acc, nd, c :: rest)
  | [] => (acc, nd, [])

/-- A digit group of the Python float grammar: a digit followed by digits
with optional single underscores between them. -/
def parseDigitPart (l : List Char) : Option (Nat × Nat × List Char) :=
  match l with
  | c :: rest => if c.isDigit then some (digitsLoop (c.toNat - 48) 1 rest) else none
  | [] => none

/-- The mantissa of the Python float grammar: either a digit group with an
optional dot and optional fractional digit group, or a dot followed by a
digit group; returns the value and the unconsumed rest. -/
def parseMantissa (l : List Char) : Option (ℚ × List Char) :=
  match parseDigitPart l with
  | some (ip, _, rest) =>
    match rest with
    | '.' :: rest2 =>
      match parseDigitPart rest2 with
      | some (fp, nf, rest3) => some ((ip : ℚ) + (fp : ℚ) / 10 ^ nf, rest3)
      | none => some ((ip : ℚ), rest2)
    | _ => some ((ip : ℚ), rest)
  | none =>
    match l with
    | '.' :: rest2 =>
      match parseDigitPart rest2 with
      | some (fp, nf, rest3) => some ((fp : ℚ) / 10 ^ nf, rest3)
      | none => none
    | _ => none

/-- A digit group that must consume the whole input, used for exponents. -/
def parseExpDigits (l : List Char) : Option Nat :=
  match parseDigitPart l with
  | some (v, _, []) => some v
  | _ => none

/-- The optionally signed exponent digits of the Python float grammar. -/
def parseExp : List Char → Option ℤ
  | '+' :: r => (parseExpDigits r).map (fun n => (n : ℤ))
  | '-' :: r => (parseExpDigits r).map (fun n => -(n : ℤ))
  | l => (parseExpDigits l).map (fun n => (n : ℤ))

/-- An unsigned float literal: mantissa with optional e/E exponent. The IEEE
special spellings inf, infinity and nan have no rational value and are
treated as unparseable by this model. -/
def parseUnsignedFloat (l : List Char) : Option ℚ :=
  match parseMantissa l with
  | none => none
  | some (m, rest) =>
    match rest with
    | [] => some m
    | c :: rest2 =>
      if c == 'e' || c == 'E' then
        match parseExp rest2 with
        | some ex => some (m * (10 : ℚ) ^ ex)
        | none => none
      else none

/-- The float constructor applied to a token: an optional sign followed by
an unsigned float literal, the whole token consumed. -/
def parsePyFloat (l : List Char) : Option ℚ :=
  match l with
  | [] => parseUnsignedFloat []
  | c :: rest =>
    if c == '+' then parseUnsignedFloat rest
    else if c == '-' then (parseUnsignedFloat rest).map (fun q => -q)
    else parseUnsignedFloat (c :: rest)

/-- The per-token cleanup of parse_measurement_series:
token.strip().strip(","). -/
def cleanChunk (token : List Char) : List Char :=
  stripEnds (· == ',') (stripEnds isPySpace token)

/-- The token loop of parse_measurement_series: clean each token, skip the
chunks that are empty after cleaning, append parsed values to the first
accumulator and unparseable chunks to the second. -/
def parseLoop : List (List Char) → List ℚ × List String → List ℚ × List String
  | [], acc => acc
  | token :: rest, acc =>
    let chunk := cleanChunk token
    if chunk = [] then parseLoop rest acc
    else
      match parsePyFloat chunk with
      | some q => parseLoop rest (acc.1 ++ [q], acc.2)
      | none => parseLoop rest (acc.1, acc.2 ++ [String.mk chunk])

/-- Shallow embedding of parse_measurement_series: split the stripped text
on separator runs (an empty input yields no tokens at all), then run the
token loop. -/
def parse_measurement_series (raw_values : String) : List ℚ × List String :=
  let tokens := if raw_values = "" then [] else reSplitSeps (stripEnds isPySpace raw_values.data)
  parseLoop tokens ([], [])

/-- The chunks that survive splitting and cleaning for a given raw input. -/
def parsedChunks (raw : String) : List (List Char) :=
  ((if raw = "" then [] else reSplitSeps (stripEnds isPySpace raw.data)).map cleanChunk).filter
    (fun c => !c.isEmpty)

/-- The token loop partitions the surviving chunks: parsed values are
appended in order, unparseable chunks are collected in order. -/
theorem parseLoop_eq (tokens : List (List Char)) (acc : List ℚ × List String) :
    parseLoop tokens acc =
      (acc.1 ++ ((tokens.map cleanChunk).filter (fun c => !c.isEmpty)).filterMap parsePyFloat,
       acc.2 ++ ((((tokens.map cleanChunk).filter (fun c => !c.isEmpty)).filter
          (fun c => (parsePyFloat c).isNone)).map String.mk)) := by
  induction tokens generalizing acc with
  | nil => simp [parseLoop]
  | cons t ts ih =>
    simp only [parseLoop, List.map_cons, List.filter_cons]
    by_cases hc : cleanChunk t = []
    · rw [if_pos hc, hc]
      simpa using ih acc
    · rw [if_neg hc]
      have hne : (!(cleanChunk t).isEmpty) = true := by
        simp [List.isEmpty_iff, hc]
      rw [hne]
      cases hp : parsePyFloat (cleanChunk t) with
      | some q => simp [hp, ih, List.append_assoc]
      | none => simp [hp, ih, List.append_assoc]

/-- parse_measurement_series in declarative form: the values are the chunks
that parse, in order, and the invalid tokens are the chunks that do not, in
order. -/
theorem parse_measurement_series_eq (raw : String) :
    parse_measurement_series raw =
      ((parsedChunks raw).filterMap parsePyFloat,
       ((parsedChunks raw).filter (fun c => (parsePyFloat c).isNone)).map String.mk) := by
  unfold parse_measurement_series parsedChunks
  rw [parseLoop_eq]
  simp

/-- Unfolding equations of reSplitSeps, one per branch shape. -/
theorem reSplitSeps_sep_nil (c : Char) (hc : isSepChar c) : reSplitSeps [c] = [[], []] := by
  simp only [reSplitSeps]
  rw [if_pos hc]

theorem reSplitSeps_sep_sep (c c2 : Char) (r2 : List Char) (hc : isSepChar c)
    (hc2 : isSepChar c2) : reSplitSeps (c :: c2 :: r2) = reSplitSeps (c2 :: r2) := by
  simp only [reSplitSeps]
  rw [if_pos hc, if_pos hc2]

theorem reSplitSeps_sep_nonsep (c c2 : Char) (r2 : List Char) (hc : isSepChar c)
    (hc2 : ¬ isSepChar c2) : reSplitSeps (c :: c2 :: r2) = [] :: reSplitSeps (c2 :: r2) := by
  simp only [reSplitSeps]
  rw [if_pos hc, if_neg hc2]

theorem reSplitSeps_nonsep_nil (c : Char) (rest : List Char) (hc : ¬ isSepChar c)
    (hsp : reSplitSeps rest = []) : reSplitSeps (c :: rest) = [[c]] := by
  simp only [reSplitSeps]
  rw [if_neg hc, hsp]

theorem reSplitSeps_nonsep_cons (c : Char) (rest t0 : List Char) (ts : List (List Char))
    (hc : ¬ isSepChar c) (hsp : reSplitSeps rest = t0 :: ts) :
    reSplitSeps (c :: rest) = (c :: t0) :: ts := by
  simp only [reSplitSeps]
  rw [if_neg hc, hsp]

/-- Every character of every piece that re.split produces is outside of the
separator class. -/
theorem reSplitSeps_no_sep (s : List Char) :
    ∀ t ∈ reSplitSeps s, ∀ ch ∈ t, isSepChar ch = false := by
  induction s with
  | nil =>
    intro t ht ch hch
    simp only [reSplitSeps, List.mem_singleton] at ht
    subst ht
    simp at hch
  | cons c rest ih =>
    intro t ht ch hch
    by_cases hc : isSepChar c
    · cases rest with
      | nil =>
        rw [reSplitSeps_sep_nil c hc] at ht
        have ht2 : t = [] := by
          rcases List.mem_cons.mp ht with rfl | h
          · rfl
          · exact List.mem_singleton.mp h
        subst ht2
        simp at hch
      | cons c2 r2 =>
        by_cases hc2 : isSepChar c2
        · rw [reSplitSeps_sep_sep c c2 r2 hc hc2] at ht
          exact ih t ht ch hch
        · rw [reSplitSeps_sep_nonsep c c2 r2 hc hc2] at ht
          rcases List.mem_cons.mp ht with rfl | ht2
          · simp at hch
          · exact ih t ht2 ch hch
    · cases hsp : reSplitSeps rest with
      | nil =>
        rw [reSplitSeps_nonsep_nil c rest hc hsp] at ht
        rw [List.mem_singleton] at ht
        subst ht
        rw [List.mem_singleton] at hch
        subst hch
        simp only [Bool.not_eq_true] at hc
        exact hc
      | cons t0 ts =>
        rw [reSplitSeps_nonsep_cons c rest t0 ts hc hsp] at ht
        rcases List.mem_cons.mp ht with rfl | ht2
        · rcases List.mem_cons.mp hch with rfl | hch2
          · simp only [Bool.not_eq_true] at hc
            exact hc
          · exact ih t0 (by rw [hsp]; exact List.mem_cons_self t0 ts) ch hch2
        · exact ih t (by rw [hsp]; exact List.mem_cons_of_mem t0 ht2) ch hch

/-- Stripping characters from both ends only removes characters. -/
theorem stripEnds_subset (p : Char → Bool) (l : List Char) :
    ∀ ch ∈ stripEnds p l, ch ∈ l := by
  intro ch hch
  unfold stripEnds at hch
  rw [List.mem_reverse] at hch
  have h1 := (List.dropWhile_sublist p).subset hch
  rw [List.mem_reverse] at h1
  exact (List.dropWhile_sublist p).subset h1

/-- A parsed mantissa is non-negative. -/
theorem parseMantissa_nonneg (l : List Char) (q : ℚ) (rest : List Char)
    (h : parseMantissa l = some (q, rest)) : 0 ≤ q := by
  unfold parseMantissa at h
  split at h
  next ip nd rest1 heq =>
    split at h
    next rest2 =>
      split at h
      next fp nf rest3 heq2 =>
        injection h with h1
        injection h1 with h2 h3
        rw [← h2]
        positivity
      next =>
        injection h with h1
        injection h1 with h2 h3
        rw [← h2]
        positivity
    next =>
      injection h with h1
      injection h1 with h2 h3
      rw [← h2]
      positivity
  next =>
    split at h
    next rest2 =>
      split at h
      next fp nf rest3 heq2 =>
        injection h with h1
        injection h1 with h2 h3
        rw [← h2]
        positivity
      next => exact absurd h (by simp)
    next => exact absurd h (by simp)

/-- A parsed unsigned float literal is non-negative. -/
theorem parseUnsignedFloat_nonneg (l : List Char) (q : ℚ)
    (h : parseUnsignedFloat l = some q) : 0 ≤ q := by
  unfold parseUnsignedFloat at h
  split at h
  next => exact absurd h (by simp)
  next m rest heq =>
    split at h
    next =>
      injection h with h1
      rw [← h1]
      exact parseMantissa_nonneg l m _ heq
    next c rest2 =>
      split at h
      · split at h
        next ex heq2 =>
          injection h with h1
          rw [← h1]
          have hm := parseMantissa_nonneg l m _ heq
          exact mul_nonneg hm (le_of_lt (zpow_pos (by norm_num) ex))
        next => exact absurd h (by simp)
      · exact absurd h (by simp)

/-- A token containing no minus sign parses, when it parses at all, to a
non-negative value. -/
theorem parsePyFloat_nonneg_of_no_minus (l : List Char) (q : ℚ)
    (hm : ('-' : Char) ∉ l) (h : parsePyFloat l = some q) : 0 ≤ q := by
  cases l with
  | nil =>
    simp only [parsePyFloat] at h
    exact parseUnsignedFloat_nonneg [] q h
  | cons c cs =>
    simp only [parsePyFloat] at h
    by_cases hplus : c == '+'
    · rw [if_pos hplus] at h
      exact parseUnsignedFloat_nonneg cs q h
    · rw [if_neg hplus] at h
      by_cases hminus : c == '-'
      · exact absurd (List.mem_cons_self c cs) (by rw [show c = '-' from by simpa using hminus] at hm ⊢; exact hm)
      · rw [if_neg hminus] at h
        exact parseUnsignedFloat_nonneg (c :: cs) q h

/-- Every chunk that reaches the float constructor is free of separator
characters, in particular of minus signs. -/
theorem parsedChunks_no_minus (raw : String) (chunk : List Char)
    (hchunk : chunk ∈ parsedChunks raw) : ('-' : Char) ∉ chunk := by
  intro hmem
  unfold parsedChunks at hchunk
  rcases List.mem_filter.mp hchunk with ⟨hmap, _⟩
  rcases List.mem_map.mp hmap with ⟨token, htok, rfl⟩
  by_cases hraw : raw = ""
  · rw [if_pos hraw] at htok
    simp at htok
  · rw [if_neg hraw] at htok
    have h1 : ('-' : Char) ∈ token :=
      stripEnds_subset isPySpace token '-'
        (stripEnds_subset (fun c => c == ',') (stripEnds isPySpace token) '-' hmem)
    have h2 := reSplitSeps_no_sep _ token htok '-' h1
    exact absurd h2 (by decide)

/-- C8: parse_measurement_series splits on runs of whitespace, commas,
semicolons, hyphens and slashes, trims each token and strips its commas,
silently drops chunks that are empty after trimming, parses the surviving
chunks in order, and collects the chunks that fail numeric parsing as
invalid tokens, in order, without discarding the parsed values; in
particular, parsing "1, abc, 3" yields values [1, 3] and invalid ["abc"]. -/
theorem C8_parse_partitions_tokens :
    (∀ raw : String,
      parse_measurement_series raw =
        ((parsedChunks raw).filterMap parsePyFloat,
         ((parsedChunks raw).filter (fun c => (parsePyFloat c).isNone)).map String.mk)) ∧
    parse_measurement_series "1, abc, 3" = ([1, 3], ["abc"]) :=
  ⟨parse_measurement_series_eq, by decide⟩

/-- C10: every value in the parsed values list of any input is non-negative,
because the hyphen belongs to the separator class and therefore no chunk
reaching the float constructor contains a minus sign; pasting "-5" silently
yields the positive value 5 with no invalid token recorded. -/
theorem C10_parsed_values_nonneg :
    (∀ (raw : String) (q : ℚ), q ∈ (parse_measurement_series raw).1 → 0 ≤ q) ∧
    parse_measurement_series "-5" = ([5], []) := by
  constructor
  · intro raw q hq
    rw [parse_measurement_series_eq] at hq
    rcases List.mem_filterMap.mp hq with ⟨chunk, hchunk, hparse⟩
    exact parsePyFloat_nonneg_of_no_minus chunk q (parsedChunks_no_minus raw chunk hchunk) hparse
  · decide

/-- C10 witness: applying the non-negativity statement to the value that
"-5" parses to. -/
theorem C10_witness : (0 : ℚ) ≤ 5 ∧ parse_measurement_series "-5" = ([5], []) :=
  ⟨C10_parsed_values_nonneg.1 "-5" 5 (by decide), C10_parsed_values_nonneg.2⟩

/-- Shallow embedding of summarize_series_outcome; a none result models the
IndexError the source raises when the detail, status or measurement list is
empty. The reads happen in source order, though for an Option-valued model
the order does not change which inputs produce none. -/
def summarize_series_outcome (measurements : List ℚ) (statuses details : List String)
    (criterion : Criterion) : Option (String × String) := do
  let latest_detail ← details.getLast?
  let latest_status ← statuses.getLast?
  let first ← measurements.head?
  let last ← measurements.getLast?
  let trend :=
    if last > first + 1e-9 then "increasing"
    else if last < first - 1e-9 then "decreasing"
    else "flat"
  let note := criterion.note
  let sevsum :=
    if statuses.count "Fail" ≠ 0 then
      ("error", toString (statuses.count "Fail") ++
        " measurement(s) exceeded the published limit. Latest status: " ++ latest_status ++
        " — " ++ latest_detail ++ ".")
    else if statuses.count "Investigate" ≠ 0 then
      ("warning", toString (statuses.count "Investigate") ++
        " measurement(s) entered the investigate band. Latest status: " ++ latest_status ++
        " — " ++ latest_detail ++ ".")
    else
      ("success", "All " ++ toString measurements.length ++
        " readings remain within the advisory band. Latest detail: " ++ latest_detail ++ ".")
  let summary := sevsum.2 ++ " Trend appears " ++ trend ++ "."
  let summary :=
    match note with
    | some n => if n ≠ "" then summary ++ " " ++ n else summary
    | none => summary
  some (sevsum.1, summary)

/-- Folding a sentence period into the following trend sentence. -/
theorem dot_trend_fold (x : String) :
    "." ++ (" Trend appears " ++ x) = ". Trend appears " ++ x := by
  rw [← String.append_assoc]
  rfl

/-- Folding a sentence period into a following space. -/
theorem dot_space_fold (x : String) : "." ++ (" " ++ x) = ". " ++ x := by
  rw [← String.append_assoc]
  rfl

/-- C3: for a non-empty series (last status ls, last detail ld, first raw
value f, last raw value l), the summary severity is error when any status is
Fail, with a narrative leading with the Fail count and the last element's
status and detail; else warning when any status is Investigate, with the
same latest-element reporting; else success reporting that all N readings
are within band with the latest detail; and the appended trend word is
increasing when l exceeds f by more than 1e-9, decreasing when l is below f
by more than 1e-9, and flat otherwise. -/
theorem C3_summary_severity_and_trend (ms : List ℚ) (ss ds : List String) (c : Criterion)
    (ls ld : String) (f l : ℚ)
    (hls : ss.getLast? = some ls) (hld : ds.getLast? = some ld)
    (hf : ms.head? = some f) (hl : ms.getLast? = some l) :
    (let trend := if l > f + 1e-9 then "increasing"
      else if l < f - 1e-9 then "decreasing" else "flat"
     let tail := " Trend appears " ++ trend ++ "." ++
      (match c.note with
       | some n => if n ≠ "" then " " ++ n else ""
       | none => "")
     ("Fail" ∈ ss →
        summarize_series_outcome ms ss ds c = some ("error",
          toString (ss.count "Fail") ++
            " measurement(s) exceeded the published limit. Latest status: " ++ ls ++ " — " ++
            ld ++ "." ++ tail)) ∧
     ("Fail" ∉ ss → "Investigate" ∈ ss →
        summarize_series_outcome ms ss ds c = some ("warning",
          toString (ss.count "Investigate") ++
            " measurement(s) entered the investigate band. Latest status: " ++ ls ++ " — " ++
            ld ++ "." ++ tail)) ∧
     ("Fail" ∉ ss → "Investigate" ∉ ss →
        summarize_series_outcome ms ss ds c = some ("success",
          "All " ++ toString ms.length ++
            " readings remain within the advisory band. Latest detail: " ++
            ld ++ "." ++ tail))) := by
  have hexp : summarize_series_outcome ms ss ds c =
      (let trend := if l > f + 1e-9 then "increasing"
        else if l < f - 1e-9 then "decreasing" else "flat"
       let sevsum :=
        if ss.count "Fail" ≠ 0 then
          ("error", toString (ss.count "Fail") ++
            " measurement(s) exceeded the published limit. Latest status: " ++ ls ++
            " — " ++ ld ++ ".")
        else if ss.count "Investigate" ≠ 0 then
          ("warning", toString (ss.count "Investigate") ++
            " measurement(s) entered the investigate band. Latest status: " ++ ls ++
            " — " ++ ld ++ ".")
        else
          ("success", "All " ++ toString ms.length ++
            " readings remain within the advisory band. Latest detail: " ++ ld ++ ".")
       let summary := sevsum.2 ++ " Trend appears " ++ trend ++ "."
       let summary :=
        match c.note with
        | some n => if n ≠ "" then summary ++ " " ++ n else summary
        | none => summary
       some (sevsum.1, summary)) := by
    unfold summarize_series_outcome
    rw [hld, hls, hf, hl]
    rfl
  refine ⟨?_, ?_, ?_⟩
  · intro hfail
    have hcount : ss.count "Fail" ≠ 0 := by
      rw [Ne, List.count_eq_zero]
      exact fun h => h hfail
    rw [hexp]
    simp only [if_pos hcount]
    cases hnote : c.note with
    | none => simp [String.append_assoc, dot_trend_fold, dot_space_fold]
    | some n =>
      by_cases hn : n = ""
      · simp [hn, String.append_assoc, dot_trend_fold, dot_space_fold]
      · simp [hn, String.append_assoc, dot_trend_fold, dot_space_fold]
  · intro hnofail hinv
    have hcount : ¬ ss.count "Fail" ≠ 0 := by
      rw [Ne, List.count_eq_zero]
      simp [hnofail]
    have hcount2 : ss.count "Investigate" ≠ 0 := by
      rw [Ne, List.count_eq_zero]
      exact fun h => h hinv
    rw [hexp]
    simp only [if_neg hcount, if_pos hcount2]
    cases hnote : c.note with
    | none => simp [String.append_assoc, dot_trend_fold, dot_space_fold]
    | some n =>
      by_cases hn : n = ""
      · simp [hn, String.append_assoc, dot_trend_fold, dot_space_fold]
      · simp [hn, String.append_assoc, dot_trend_fold, dot_space_fold]
  · intro hnofail hnoinv
    have hcount : ¬ ss.count "Fail" ≠ 0 := by
      rw [Ne, List.count_eq_zero]
      simp [hnofail]
    have hcount2 : ¬ ss.count "Investigate" ≠ 0 := by
      rw [Ne, List.count_eq_zero]
      simp [hnoinv]
    rw [hexp]
    simp only [if_neg hcount, if_neg hcount2]
    cases hnote : c.note with
    | none => simp [String.append_assoc, dot_trend_fold, dot_space_fold]
    | some n =>
      by_cases hn : n = ""
      · simp [hn, String.append_assoc, dot_trend_fold, dot_space_fold]
      · simp [hn, String.append_assoc, dot_trend_fold, dot_space_fold]

def c3crit : Criterion :=
  ⟨"t1", none, none, none, none, none, none, some "Use caution on re-energization."⟩

/-- C3 witness: the error and warning scenarios exercised by the repository
test-suite, with the first one carrying a criterion note. -/
theorem C3_witness :
    summarize_series_outcome [1, 2, 3] ["Pass", "Fail", "Fail"] ["ok", "too high", "still high"]
      c3crit =
      some ("error", "2 measurement(s) exceeded the published limit. Latest status: Fail — still high. Trend appears increasing. Use caution on re-energization.") ∧
    summarize_series_outcome [5, 4.1, 3.2] ["Pass", "Investigate", "Investigate"]
      ["steady", "dipping", "closer to limit"]
      ⟨"t2", none, none, none, none, none, none, none⟩ =
      some ("warning", "2 measurement(s) entered the investigate band. Latest status: Investigate — closer to limit. Trend appears decreasing.") := by
  constructor
  · have h := (C3_summary_severity_and_trend [1, 2, 3] ["Pass", "Fail", "Fail"]
      ["ok", "too high", "still high"] c3crit "Fail" "still high" 1 3 rfl rfl rfl rfl).1
      (by decide)
    rw [h]
    decide
  · have h := (C3_summary_severity_and_trend [5, 4.1, 3.2] ["Pass", "Investigate", "Investigate"]
      ["steady", "dipping", "closer to limit"]
      ⟨"t2", none, none, none, none, none, none, none⟩ "Investigate" "closer to limit" 5 3.2
      rfl rfl rfl rfl).2.1 (by decide) (by decide)
    rw [h]
    decide

/-- Polynomial hash of the argument strings folded into 32 bits, with the
degenerate seed 0 mapped to 1. -/
def _stable_seed (parts : List String) : Nat :=
  let seed := parts.foldl
    (fun acc part => part.data.foldl (fun s c => (s * 31 + c.toNat) % 2 ^ 32) acc) 0
  if seed = 0 then 1 else seed

/-- Lookup in a dictionary keyed by the three scenario names; none models the
KeyError raised for an unknown scenario. -/
def scenarioPick (scenario : String) (healthy drifting out_of_tolerance : ℚ) : Option ℚ :=
  if scenario = "Healthy" then some healthy
  else if scenario = "Drifting" then some drifting
  else if scenario = "Out of tolerance" then some out_of_tolerance
  else none

/-- Rounding to four decimal places, as the round builtin does. -/
def round4 (q : ℚ) : ℚ := (roundHalfEvenInt (q * 10000) : ℚ) / 10000

/-- Shallow embedding of simulate_measurements. The uniform argument models
the external random.Random stream: uniform seed i is the i-th
uniform(-0.05, 0.05) draw of the generator seeded with seed; the seed the
source builds with _stable_seed is threaded through it. -/
def simulate_measurements (uniform : Nat → Nat → ℚ) (criterion : Criterion)
    (scenario : String) (count : Nat) : Option (List ℚ × Option ℚ) :=
  let seed := _stable_seed [criterion.id, scenario, toString count]
  let eval_type := criterion.evaluation_type.getD "absolute"
  if eval_type = "percentage_change" then
    let limit_pct := (pyOrQ criterion.maximum (pyOrQ criterion.investigate_above
      (pyOrQ criterion.investigate_below (some 10)))).getD 10
    match scenarioPick scenario (limit_pct * 0.25) (limit_pct * 0.65) (limit_pct * 0.95),
        scenarioPick scenario (limit_pct * 0.45) (limit_pct * 0.95) (limit_pct * 1.3) with
    | some start_pct, some end_pct =>
      let span : ℚ := max ((count : ℚ) - 1) 1
      some ((List.range count).map (fun (idx : Nat) =>
        let pct := start_pct + (end_pct - start_pct) * ((idx : ℚ) / span)
        let pct := pct + uniform seed idx * limit_pct
        let pct := max pct 0
        100 * (1 + pct / 100)), some 100)
    | _, _ => none
  else
    let span : ℚ := max ((count : ℚ) - 1) 1
    let core := fun (start_val end_val : ℚ) =>
      (List.range count).map (fun (idx : Nat) =>
        let blend := (idx : ℚ) / span
        let target := start_val + (end_val - start_val) * blend
        let jitter_basis := (pyOrQ criterion.maximum (pyOrQ criterion.minimum
          (pyOrQ (some target) (some 1)))).getD 1
        let jitter := uniform seed idx * jitter_basis
        round4 (max (target + jitter) 0.0001))
    match criterion.maximum with
    | some limit_max =>
      match scenarioPick scenario 0.55 0.75 0.9, scenarioPick scenario 0.7 0.98 1.2 with
      | some sf, some ef => some (core (limit_max * sf) (limit_max * ef), none)
      | _, _ => none
    | none =>
      match criterion.minimum with
      | some limit_min =>
        match scenarioPick scenario 1.35 1.2 1.05, scenarioPick scenario 1.25 0.95 0.75 with
        | some sf, some ef => some (core (limit_min * sf) (limit_min * ef), none)
        | _, _ => none
      | none =>
        let s := if scenario = "Healthy" then (1 : ℚ) else 1.2
        let e := if scenario = "Healthy" then (1.05 : ℚ) else 1.35
        some (core s e, none)

def c4critA : Criterion := ⟨"c4", some "absolute", none, some 10, none, none, none, none⟩

def c4critB : Criterion := ⟨"c4", some "absolute", none, some 20, none, none, none, none⟩

/-- Round half to even never moves a value by more than one. -/
theorem roundHalfEvenInt_le (q : ℚ) : (roundHalfEvenInt q : ℚ) ≤ q + 1 := by
  simp only [roundHalfEvenInt]
  have h1 := Int.floor_le q
  have h2 := Int.lt_floor_add_one q
  split_ifs <;> push_cast <;> linarith

theorem le_roundHalfEvenInt (q : ℚ) : q - 1 ≤ (roundHalfEvenInt q : ℚ) := by
  simp only [roundHalfEvenInt]
  have h1 := Int.floor_le q
  have h2 := Int.lt_floor_add_one q
  split_ifs <;> push_cast <;> linarith

/-- C4 counterexample: two criteria sharing the identifier string but
differing in their maximum produce different sequences for the same scenario
and count, already with the all-zero draw stream, so the output is not a
function of (identifier, scenario, count) alone. -/
theorem C4_counterexample :
    c4critA.id = c4critB.id ∧
    simulate_measurements (fun _ _ => 0) c4critA "Healthy" 2 ≠
      simulate_measurements (fun _ _ => 0) c4critB "Healthy" 2 :=
  ⟨rfl, by decide⟩

/-- The divergence of C4_counterexample is not an artifact of the chosen
stream: any stream whose draws lie in the uniform(-0.05, 0.05) range
separates the two criteria, because the first value lands in [5, 6.0001] for
the one and in [9.9999, 12] for the other. -/
theorem simulate_separates_shared_id_for_bounded_stream (u : Nat → Nat → ℚ)
    (hb : ∀ s i, -(1/20 : ℚ) ≤ u s i ∧ u s i < 1/20) :
    simulate_measurements u c4critA "Healthy" 2 ≠
      simulate_measurements u c4critB "Healthy" 2 := by
  intro heq
  set S := _stable_seed ["c4", "Healthy", toString 2] with hS
  have hA : simulate_measurements u c4critA "Healthy" 2 =
      some ([round4 (max ((10 : ℚ) * 0.55 + u S 0 * 10) 0.0001),
             round4 (max ((10 : ℚ) * 0.55 + ((10 : ℚ) * 0.7 - (10 : ℚ) * 0.55) *
               ((1 : ℚ) / 1) + u S 1 * 10) 0.0001)], none) := by
    simp only [simulate_measurements, c4critA, scenarioPick, pyOrQ, hS, Option.getD_some, String.reduceEq, reduceIte]
    norm_num [List.range_succ]
  have hB : simulate_measurements u c4critB "Healthy" 2 =
      some ([round4 (max ((20 : ℚ) * 0.55 + u S 0 * 20) 0.0001),
             round4 (max ((20 : ℚ) * 0.55 + ((20 : ℚ) * 0.7 - (20 : ℚ) * 0.55) *
               ((1 : ℚ) / 1) + u S 1 * 20) 0.0001)], none) := by
    simp only [simulate_measurements, c4critB, scenarioPick, pyOrQ, hS, Option.getD_some, String.reduceEq, reduceIte]
    norm_num [List.range_succ]
  rw [hA, hB] at heq
  have hfirst : round4 (max ((10 : ℚ) * 0.55 + u S 0 * 10) 0.0001) =
      round4 (max ((20 : ℚ) * 0.55 + u S 0 * 20) 0.0001) := by
    have h1 := congrArg (fun x : List ℚ × Option ℚ => x.1.head?) (Option.some.inj heq)
    simpa using h1
  obtain ⟨hb0l, hb0r⟩ := hb S 0
  have hargA : max ((10 : ℚ) * 0.55 + u S 0 * 10) 0.0001 = (10 : ℚ) * 0.55 + u S 0 * 10 :=
    max_eq_left (by nlinarith)
  have hargB : max ((20 : ℚ) * 0.55 + u S 0 * 20) 0.0001 = (20 : ℚ) * 0.55 + u S 0 * 20 :=
    max_eq_left (by nlinarith)
  rw [hargA, hargB] at hfirst
  have hAle : round4 ((10 : ℚ) * 0.55 + u S 0 * 10) ≤ 6.0001 := by
    unfold round4
    have := roundHalfEvenInt_le (((10 : ℚ) * 0.55 + u S 0 * 10) * 10000)
    rw [div_le_iff₀ (by norm_num : (0 : ℚ) < 10000)]
    nlinarith
  have hBge : (9.9999 : ℚ) ≤ round4 ((20 : ℚ) * 0.55 + u S 0 * 20) := by
    unfold round4
    have := le_roundHalfEvenInt (((20 : ℚ) * 0.55 + u S 0 * 20) * 10000)
    rw [le_div_iff₀ (by norm_num : (0 : ℚ) < 10000)]
    nlinarith
  rw [hfirst] at hAle
  linarith

/-- C4 amended: the synthesizer output is a pure function of the criterion
fields it reads (identifier, evaluation type and the four bounds) together
with the scenario, the count and the draw stream; fields it does not read,
such as the unit or the note, cannot change the output, and the stream seed
depends only on (identifier, scenario, count). -/
theorem C4_simulate_function_of_read_fields (u : Nat → Nat → ℚ) (c c' : Criterion)
    (s : String) (n : Nat)
    (h1 : c.id = c'.id) (h2 : c.evaluation_type = c'.evaluation_type)
    (h3 : c.minimum = c'.minimum) (h4 : c.maximum = c'.maximum)
    (h5 : c.investigate_below = c'.investigate_below)
    (h6 : c.investigate_above = c'.investigate_above) :
    simulate_measurements u c s n = simulate_measurements u c' s n := by
  simp only [simulate_measurements, h1, h2, h3, h4, h5, h6]

def c4critC : Criterion :=
  ⟨"c4", some "absolute", none, some 10, none, none, some "MΩ", some "watch this"⟩

/-- C4 witness: two criteria equal on all read fields but with different
unit and note produce identical output. -/
theorem C4_witness :
    simulate_measurements (fun _ _ => 0) c4critA "Healthy" 2 =
      simulate_measurements (fun _ _ => 0) c4critC "Healthy" 2 :=
  C4_simulate_function_of_read_fields (fun _ _ => 0) c4critA c4critC "Healthy" 2
    rfl rfl rfl rfl rfl rfl

def c6crit : Criterion := ⟨"c6", none, none, none, none, none, none, none⟩

/-- C6 counterexample: on the empty lists, which are well-typed inputs,
summarize_series_outcome produces the model of the IndexError the source
raises when indexing the last detail, so the summarizer does throw for some
well-typed list input. -/
theorem C6_counterexample : summarize_series_outcome [] [] [] c6crit = none := rfl

/-- C6 amended: the evaluator is total by construction for every numeric
value, criterion and baseline; the summarizer never raises provided the
measurement, status and detail lists are non-empty; and the synthesizer
never raises provided the scenario is one of the three known names. -/
theorem C6_no_exceptions_on_supported_inputs :
    (∀ (ms : List ℚ) (ss ds : List String) (c : Criterion),
      ms ≠ [] → ss ≠ [] → ds ≠ [] →
      (summarize_series_outcome ms ss ds c).isSome) ∧
    (∀ (u : Nat → Nat → ℚ) (c : Criterion) (s : String) (n : Nat),
      s = "Healthy" ∨ s = "Drifting" ∨ s = "Out of tolerance" →
      (simulate_measurements u c s n).isSome) := by
  constructor
  · intro ms ss ds c hms hss hds
    have hld := List.getLast?_eq_getLast ds hds
    have hls := List.getLast?_eq_getLast ss hss
    have hf := List.head?_eq_head hms
    have hl := List.getLast?_eq_getLast ms hms
    unfold summarize_series_outcome
    rw [hld, hls, hf, hl]
    rfl
  · intro u c s n hs
    by_cases hp : c.evaluation_type.getD "absolute" = "percentage_change"
    · simp only [simulate_measurements]
      rw [if_pos hp]
      rcases hs with rfl | rfl | rfl <;> simp [scenarioPick]
    · simp only [simulate_measurements]
      rw [if_neg hp]
      cases hmax : c.maximum with
      | some lm => rcases hs with rfl | rfl | rfl <;> simp [scenarioPick, hmax]
      | none =>
        cases hmin : c.minimum with
        | some lmin => rcases hs with rfl | rfl | rfl <;> simp [scenarioPick, hmax, hmin]
        | none => simp [hmax, hmin]

/-- C6 witness: the summarizer on a one-element series and the synthesizer
on a known scenario both return a value. -/
theorem C6_witness :
    (summarize_series_outcome [1] ["Pass"] ["ok"] c6crit).isSome ∧
    (simulate_measurements (fun _ _ => 0) c6crit "Drifting" 3).isSome :=
  ⟨C6_no_exceptions_on_supported_inputs.1 [1] ["Pass"] ["ok"] c6crit
      (by decide) (by decide) (by decide),
    C6_no_exceptions_on_supported_inputs.2 (fun _ _ => 0) c6crit "Drifting" 3
      (Or.inr (Or.inl rfl))⟩

/-- The fields of a test record that build_criteria_index reads: the
identifier (kept for the registry invariants the spec states) and the
criteria list, absent when the raw record lacks the key. -/
structure TestRecord where
  id : String
  criteria : Option (List Criterion)
deriving DecidableEq

/-- Assignment into a string-keyed dictionary: replaces the value of an
existing key in place, otherwise appends the binding. -/
def dictSet {α : Type} : List (String × α) → String → α → List (String × α)
  | [], k, v => [(k, v)]
  | (k', v') :: rest, k, v =>
    if k' = k then (k, v) :: rest else (k', v') :: dictSet rest k v

/-- The loop of build_criteria_index; an error models the KeyError that the
source raises on the first record lacking the criteria key. -/
def buildAux (index : List (String × (TestRecord × Criterion))) :
    List TestRecord → Except String (List (String × (TestRecord × Criterion)))
  | [] => .ok index
  | t :: rest =>
    match t.criteria with
    | none => .error "KeyError: criteria"
    | some cs => buildAux (cs.foldl (fun idx c => dictSet idx c.id (t, c)) index) rest

/-- Shallow embedding of build_criteria_index: a flat index keyed by
criterion identifier, each entry holding the owning test and the
criterion. -/
def build_criteria_index (tests : List TestRecord) :
    Except String (List (String × (TestRecord × Criterion))) :=
  buildAux [] tests

def critX1 : Criterion := ⟨"c1", some "absolute", none, some 10, none, none, none, none⟩

def critX2 : Criterion := ⟨"c1", some "absolute", none, some 20, none, none, none, none⟩

def trecA : TestRecord := ⟨"T1", some [critX1]⟩

def trecB : TestRecord := ⟨"T1", some [critX2]⟩

def trecMissing : TestRecord := ⟨"T3", none⟩

/-- C5 counterexample: two records sharing an identifier (both the test
identifier and the criterion identifier coincide) do not make the build
fail: it succeeds and silently keeps only the later record's entry. -/
theorem C5_counterexample :
    build_criteria_index [trecA, trecB] = Except.ok [("c1", (trecB, critX2))] := rfl

/-- C5 amended: build_criteria_index performs no validation. It always
succeeds when every record carries a criteria list, silently overwriting on
duplicate criterion identifiers (last record wins); a record without a
criteria list makes it fail with the model of a KeyError naming the missing
key — a single exception at the first offending record, not a
ValidationError enumerating every problem in the input. -/
theorem C5_build_does_not_validate :
    (∀ tests : List TestRecord, (∀ t ∈ tests, t.criteria.isSome) →
      ∃ index, build_criteria_index tests = Except.ok index) ∧
    build_criteria_index [trecMissing] = Except.error "KeyError: criteria" ∧
    build_criteria_index [trecMissing, trecA, trecB] = Except.error "KeyError: criteria" := by
  refine ⟨?_, rfl, rfl⟩
  have haux : ∀ (tests : List TestRecord) (index : List (String × (TestRecord × Criterion))),
      (∀ t ∈ tests, t.criteria.isSome) → ∃ r, buildAux index tests = Except.ok r := by
    intro tests
    induction tests with
    | nil => exact fun index _ => ⟨index, rfl⟩
    | cons t ts ih =>
      intro index h
      obtain ⟨cs, hcs⟩ := Option.isSome_iff_exists.mp (h t (List.mem_cons_self t ts))
      simp only [buildAux, hcs]
      exact ih _ (fun t' ht' => h t' (List.mem_cons_of_mem t ht'))
  exact fun tests h => haux tests [] h

/-- C5 witness: the build succeeds on two records that both carry criteria
lists (even though they share an identifier). -/
theorem C5_witness :
    ∃ index, build_criteria_index [trecA, trecB] = Except.ok index :=
  C5_build_does_not_validate.1 [trecA, trecB] (by decide)

end Ansinetamts
